import Mathlib

/-!
Verification development for the sandbox account-pool leasing scripts
(`lease_account.py`, `release_account.py`, `janitor.py`).

The DynamoDB `AccountPool` table is modelled as a list of `AccountRecord`
values keyed by `account_id` (DynamoDB keys are unique, so updates rewrite
every record carrying the key and reads take the first match).  Each
`table.update_item` call site in the scripts is embedded as an explicit
update against this store, carrying exactly the `UpdateExpression`
(status write plus timestamp operation) and `ConditionExpression` that the
Python call passes.  External collaborators (STS `assume_role`, the
`cloud-nuke` subprocess, the IAM temporary-user maintenance) are modelled
as oracle inputs supplied through environment structures, and wall-clock
polling is modelled as fuel (one unit per poll iteration of the acquire
loop).  Timestamps are integers (seconds); an unparsable stored timestamp
string is represented by `TsVal.bad`.
-/

/-- Account status enum stored in the `status` attribute. -/
inductive Status where
  | AVAILABLE
  | IN_USE
  | FAILED
  | DIRTY
deriving DecidableEq, Repr

/-- String form of a status, as persisted in DynamoDB. -/
def Status.toStr : Status → String
  | .AVAILABLE => "AVAILABLE"
  | .IN_USE => "IN_USE"
  | .FAILED => "FAILED"
  | .DIRTY => "DIRTY"

/-- A stored `lease_timestamp` attribute value: either a timestamp that
`datetime.fromisoformat` parses (`good`, seconds since an arbitrary epoch)
or a string it rejects with `ValueError` (`bad`). -/
inductive TsVal where
  | good (t : Int)
  | bad (s : String)
deriving DecidableEq, Repr

/-- One row of the `AccountPool` table. -/
structure AccountRecord where
  account_id : String
  status : Status
  lease_timestamp : Option TsVal
deriving DecidableEq, Repr

/-- The table contents. -/
abbrev Pool := List AccountRecord

/-- `table.get_item` / the read half of every keyed access: first record
with the given `account_id`. -/
def findRec (pool : Pool) (id : String) : Option AccountRecord :=
  pool.find? (fun r => r.account_id == id)

/-- Timestamp half of an `UpdateExpression`: `SET lease_timestamp = :ts`,
`REMOVE lease_timestamp`, or no mention of the attribute. -/
inductive TsOp where
  | setTs (t : Int)
  | removeTs
  | keepTs
deriving DecidableEq, Repr

/-- The `ConditionExpression` of an `update_item` call:  absent,
`#s = :expected`, or `attribute_exists(account_id)`. -/
inductive CondExpr where
  | noCond
  | statusEq (s : Status)
  | attrExists
deriving DecidableEq, Repr

/-- Whether a condition expression holds of an existing record. -/
def condOk (r : AccountRecord) : CondExpr → Bool
  | .noCond => true
  | .statusEq s => r.status == s
  | .attrExists => true

/-- Apply the `UpdateExpression` to an existing record. -/
def applyUpd (r : AccountRecord) (ns : Status) (op : TsOp) : AccountRecord :=
  { account_id := r.account_id
    status := ns
    lease_timestamp :=
      match op with
      | .setTs t => some (.good t)
      | .removeTs => none
      | .keepTs => r.lease_timestamp }

/-- The record an unconditional `update_item` upsert creates when the key
is absent (only the written attributes exist). -/
def newRec (id : String) (ns : Status) (op : TsOp) : AccountRecord :=
  { account_id := id
    status := ns
    lease_timestamp :=
      match op with
      | .setTs t => some (.good t)
      | .removeTs => none
      | .keepTs => none }

/-- Rewrite the records carrying `id` with the update expression. -/
def setRec (pool : Pool) (id : String) (ns : Status) (op : TsOp) : Pool :=
  pool.map (fun r => if r.account_id == id then applyUpd r ns op else r)

/-- Failure of an `update_item` call: the `ConditionalCheckFailedException`
that a false `ConditionExpression` raises. -/
inductive UpdErr where
  | condFailed
deriving DecidableEq, Repr

/-- `table.update_item`: atomic conditional update.  When the key exists
the condition is evaluated against the stored record; with no condition a
missing key is upserted (DynamoDB semantics), while `statusEq` and
`attrExists` conditions fail on a missing key. -/
def update_item (pool : Pool) (id : String) (ns : Status) (op : TsOp)
    (c : CondExpr) : Except UpdErr Pool :=
  match findRec pool id with
  | some r =>
    if condOk r c then .ok (setRec pool id ns op) else .error .condFailed
  | none =>
    match c with
    | .noCond => .ok (pool ++ [newRec id ns op])
    | _ => .error .condFailed

/-- The acquirer's claim, `lease_account.py` lines 95-105:
`SET #s = :in_use, lease_timestamp = :ts` with
`ConditionExpression "#s = :available"`. -/
def claimAccount (pool : Pool) (id : String) (t : Int) : Except UpdErr Pool :=
  update_item pool id .IN_USE (.setTs t) (.statusEq .AVAILABLE)

/-- The acquirer's sanitizer-failure marking, `lease_account.py` lines
136-141: `SET #s = :dirty`, no condition, no timestamp operation. -/
def acquirerMarkDirty (pool : Pool) (id : String) : Except UpdErr Pool :=
  update_item pool id .DIRTY .keepTs .noCond

/-- The releaser's FAILED marking, `release_account.py` lines 83-88:
`SET #s = :failed`, no condition, no timestamp operation. -/
def releaseMarkFailed (pool : Pool) (id : String) : Except UpdErr Pool :=
  update_item pool id .FAILED .keepTs .noCond

/-- The releaser's DIRTY marking, `release_account.py` lines 110-115 and
169-174: `SET #s = :dirty REMOVE lease_timestamp`, no condition. -/
def releaseMarkDirty (pool : Pool) (id : String) : Except UpdErr Pool :=
  update_item pool id .DIRTY .removeTs .noCond

/-- The releaser's final update, `release_account.py` lines 179-185:
`SET #s = :status REMOVE lease_timestamp` with
`ConditionExpression "attribute_exists(account_id)"`. -/
def releaseFinal (pool : Pool) (id : String) (st : Status) :
    Except UpdErr Pool :=
  update_item pool id st .removeTs .attrExists

/-! ## Releaser (`release_account.py`) -/

/-- The structured JSON error document the scripts print on a failure
path (`status`, `message`, `account_id`, and optionally
`current_status`). -/
structure ErrorDoc where
  status : String
  message : String
  account_id : String
  current_status : Option String
deriving DecidableEq, Repr

/-- Message of the not-found error document, `release_account.py` line 62. -/
def notFoundMsg (id : String) : String :=
  "Account " ++ id ++ " not found"

/-- Message of the not-leased error document, `release_account.py` line 73. -/
def notLeasedMsg (id : String) (st : Status) : String :=
  "Account " ++ id ++ " is not leased (current status: " ++ st.toStr ++ ")"

/-- How a `release_account` run ends.  Every failure path of the script
calls `sys.exit(1)` (which raises `SystemExit`); `ok` is the normal
return.  `exitNotFound`, `exitNotLeased` and `exitNukeFailed` print a
JSON error document first; `exitCleanupFailed` (the
`except Exception` handler at lines 164-175) only logs;
`exitStoreError` stands for the outer `ClientError`/`Exception`
handlers, reachable only if the store itself raised. -/
inductive ReleaseOutcome where
  | ok
  | exitNotFound (doc : ErrorDoc)
  | exitNotLeased (doc : ErrorDoc)
  | exitNukeFailed (doc : ErrorDoc)
  | exitCleanupFailed
  | exitStoreError
deriving DecidableEq, Repr

/-- External collaborators of the releaser, as per-account oracles:
whether `sts.assume_role` on `OrganizationAccountAccessRole` succeeds,
whether the `cloud-nuke` subprocess exits 0, and whether the IAM
temporary-user teardown completes without an unexpected exception. -/
structure ReleaseEnv where
  assumeRoleOk : String → Bool
  nukeOk : String → Bool
  cleanupOk : String → Bool

/-- Result of one `release_account` run: the exit disposition, the table
contents afterwards, and whether the `cloud-nuke` sanitizer was invoked. -/
structure ReleaseRun where
  outcome : ReleaseOutcome
  pool : Pool
  nukeInvoked : Bool
deriving DecidableEq, Repr

/-- `release_account(account_id, status)`, `release_account.py` lines
47-203.  Reads the record, rejects a missing account and a current status
outside IN_USE/FAILED, marks FAILED without any cleanup when asked to,
and otherwise assumes the role, runs `cloud-nuke`, tears down the
temporary IAM user and writes the target status; a role-assumption or
teardown exception is caught at line 164 and a `cloud-nuke` failure at
line 107, both of which mark the record DIRTY (removing the timestamp)
and exit. -/
def release_account (env : ReleaseEnv) (pool : Pool) (account_id : String)
    (status : Status) : ReleaseRun :=
  match findRec pool account_id with
  | none =>
    ⟨.exitNotFound ⟨"error", notFoundMsg account_id, account_id, none⟩,
      pool, false⟩
  | some item =>
    let current := item.status
    if ¬(current = .IN_USE ∨ current = .FAILED) then
      ⟨.exitNotLeased
        ⟨"error", notLeasedMsg account_id current, account_id,
          some current.toStr⟩, pool, false⟩
    else if status = .FAILED then
      match releaseMarkFailed pool account_id with
      | .ok p1 => ⟨.ok, p1, false⟩
      | .error _ => ⟨.exitStoreError, pool, false⟩
    else if ¬env.assumeRoleOk account_id then
      -- `sts.assume_role` raised: `except Exception` at line 164 marks
      -- DIRTY and exits before `cloud-nuke` ever runs.
      match releaseMarkDirty pool account_id with
      | .ok p1 => ⟨.exitCleanupFailed, p1, false⟩
      | .error _ => ⟨.exitStoreError, pool, false⟩
    else if ¬env.nukeOk account_id then
      match releaseMarkDirty pool account_id with
      | .ok p1 =>
        ⟨.exitNukeFailed
          ⟨"error", "cloud-nuke failed for account " ++ account_id,
            account_id, none⟩, p1, true⟩
      | .error _ => ⟨.exitStoreError, pool, true⟩
    else if ¬env.cleanupOk account_id then
      match releaseMarkDirty pool account_id with
      | .ok p1 => ⟨.exitCleanupFailed, p1, true⟩
      | .error _ => ⟨.exitStoreError, pool, true⟩
    else
      match releaseFinal pool account_id status with
      | .ok p1 => ⟨.ok, p1, true⟩
      | .error _ => ⟨.exitStoreError, pool, true⟩

/-! ## Janitor (`janitor.py`) -/

/-- Result of a janitor sweep: whether it processed the whole FAILED
snapshot (`completed`), and the table contents afterwards.  `completed`
is false when a `release_account` call exited: `sys.exit(1)` raises
`SystemExit`, which the `except Exception` handlers in
`cleanup_failed_accounts` do not catch, so the sweep aborts. -/
structure JanitorRun where
  completed : Bool
  pool : Pool
deriving DecidableEq, Repr

/-- The janitor's per-record eligibility test, `janitor.py` lines 32-58:
release immediately when `lease_timestamp` is missing (line 34) or
`datetime.fromisoformat` raises `ValueError` (line 60); otherwise release
exactly when `now - lease_ts > timedelta(hours=3)` (10800 seconds). -/
def staleEligible (now : Int) (a : AccountRecord) : Bool :=
  match a.lease_timestamp with
  | none => true
  | some (.bad _) => true
  | some (.good t) => decide (now - t > 10800)

/-- The per-record loop of `cleanup_failed_accounts`, `janitor.py` lines
30-65, over the scan snapshot.  An eligible record is released through
`release_account(id, AVAILABLE)`; when that call fails it exits via
`sys.exit(1)`, and the raised `SystemExit` is not an `Exception`, so the
`except Exception` handlers at lines 39, 55 and 64 do not catch it and
the remaining records are never processed. -/
def janitorStep (env : ReleaseEnv) (now : Int) :
    List AccountRecord → Pool → JanitorRun
  | [], pool => ⟨true, pool⟩
  | a :: rest, pool =>
    if staleEligible now a then
      let run := release_account env pool a.account_id .AVAILABLE
      match run.outcome with
      | .ok => janitorStep env now rest run.pool
      | _ => ⟨false, run.pool⟩
    else
      janitorStep env now rest pool

/-- `cleanup_failed_accounts()`, `janitor.py` lines 12-69: scan the
FAILED records and run the per-record loop over that snapshot. -/
def cleanup_failed_accounts (env : ReleaseEnv) (now : Int) (pool : Pool) :
    JanitorRun :=
  janitorStep env now (pool.filter (fun r => r.status == .FAILED)) pool

/-! ## Acquirer (`lease_account.py`) -/

/-- Outcome of one `sts.assume_role` call as the acquirer classifies it:
success, a `ClientError` with code `ValidationError`, or any other
failure. -/
inductive AssumeRes where
  | ok
  | validationErr
  | otherErr
deriving DecidableEq, Repr

/-- External collaborators of the acquirer: the claim timestamp
`datetime.now()` produces, `sts.assume_role` per account and requested
`DurationSeconds`, the `cloud-nuke` subprocess per account, and the IAM
temporary-user delete/create/attach sequence per account. -/
structure LeaseEnv where
  now : Int
  assumeRole : String → Nat → AssumeRes
  nukeOk : String → Bool
  iamOk : String → Bool

/-- How a `lease_account` run ends: the printed success document's
account, the empty-pool configuration error (line 68), the fatal
post-claim exit (line 214), or the deadline timeout with the best-effort
list of IN_USE account ids (lines 229-242). -/
inductive LeaseResult where
  | success (account_id : String)
  | configError
  | fatal (account_id : String)
  | timedOut (inUse : List String)
deriving DecidableEq, Repr

/-- Result of a `lease_account` run: the exit disposition, the table
afterwards, the account ids the acquirer attempted to claim (in order),
and the `sts.assume_role` calls it made as account-duration pairs (in
order). -/
structure LeaseRun where
  result : LeaseResult
  pool : Pool
  claimAttempts : List String
  assumeCalls : List (String × Nat)
deriving DecidableEq, Repr

/-- Mutable state threaded through the acquire loop: the table plus the
claim-attempt and assume-call traces. -/
structure CandState where
  pool : Pool
  claims : List String
  assumes : List (String × Nat)
deriving DecidableEq, Repr

/-- The credential phase after a successful claim, `lease_account.py`
lines 111-127: ask for a 14400-second session; on a `ValidationError`
retry once with 3600 seconds; any other failure (of either call) is
re-raised into the `except Exception` handler at line 210.  Returns
whether credentials were obtained, plus the calls made. -/
def assumePhase (env : LeaseEnv) (id : String) : Bool × List (String × Nat) :=
  match env.assumeRole id 14400 with
  | .ok => (true, [(id, 14400)])
  | .otherErr => (false, [(id, 14400)])
  | .validationErr =>
    match env.assumeRole id 3600 with
    | .ok => (true, [(id, 14400), (id, 3600)])
    | _ => (false, [(id, 14400), (id, 3600)])

/-- How one pass over the scanned AVAILABLE candidates ends: a lease was
obtained, a fatal post-claim error exited the process, or the candidate
list was exhausted without a lease. -/
inductive CandStep where
  | leased (id : String)
  | fatalStep (id : String)
  | exhausted
deriving DecidableEq, Repr

/-- The per-candidate loop of `lease_account.py` lines 85-221.  For each
candidate: attempt the conditional claim (a
`ConditionalCheckFailedException` means the race was lost — skip to the
next candidate); then the credential phase (failure exits fatally via
line 214, leaving the record IN_USE); then `cloud-nuke` (failure marks
the record DIRTY at lines 136-141 and continues with the next
candidate); then the IAM temporary-user replacement (an unexpected
exception exits fatally, success prints the success document and
returns). -/
def tryCandidates (env : LeaseEnv) (st : CandState) :
    List AccountRecord → CandStep × CandState
  | [] => (.exhausted, st)
  | a :: rest =>
    let id := a.account_id
    match claimAccount st.pool id env.now with
    | .error _ =>
      tryCandidates env { st with claims := st.claims ++ [id] } rest
    | .ok p1 =>
      let phase := assumePhase env id
      let st2 : CandState :=
        { pool := p1
          claims := st.claims ++ [id]
          assumes := st.assumes ++ phase.2 }
      if phase.1 then
        if env.nukeOk id then
          if env.iamOk id then (.leased id, st2) else (.fatalStep id, st2)
        else
          match acquirerMarkDirty st2.pool id with
          | .ok p2 => tryCandidates env { st2 with pool := p2 } rest
          | .error _ => (.fatalStep id, st2)
      else (.fatalStep id, st2)

/-- The diagnostic scan on timeout, `lease_account.py` lines 232-238:
the ids of the currently IN_USE records. -/
def inUseIds (pool : Pool) : List String :=
  (pool.filter (fun r => r.status == .IN_USE)).map (fun r => r.account_id)

/-- The poll loop of `lease_account.py` lines 76-227, with the deadline
modelled as fuel (one unit per iteration of the `while` loop).  Each
iteration scans the AVAILABLE records and walks the candidates; when they
are exhausted the loop sleeps and rescans; exhausted fuel is the deadline
expiring, which reports the IN_USE accounts and exits 1. -/
def lease_loop (env : LeaseEnv) : Nat → CandState → LeaseRun
  | 0, st => ⟨.timedOut (inUseIds st.pool), st.pool, st.claims, st.assumes⟩
  | fuel + 1, st =>
    let avail := st.pool.filter (fun r => r.status == .AVAILABLE)
    match tryCandidates env st avail with
    | (.leased id, st1) => ⟨.success id, st1.pool, st1.claims, st1.assumes⟩
    | (.fatalStep id, st1) => ⟨.fatal id, st1.pool, st1.claims, st1.assumes⟩
    | (.exhausted, st1) => lease_loop env fuel st1

/-- `lease_account()`, `lease_account.py` lines 48-242: the initial
unfiltered scan exits with the configuration error when the table holds
no records at all (lines 62-72), and otherwise runs the poll loop. -/
def lease_account (env : LeaseEnv) (fuel : Nat) (pool : Pool) : LeaseRun :=
  if pool.isEmpty then ⟨.configError, pool, [], []⟩
  else lease_loop env fuel ⟨pool, [], []⟩

/-! ## Store lemmas -/

/-- A found record carries the key it was looked up by. -/
theorem findRec_id {pool : Pool} {id : String} {r : AccountRecord}
    (hf : findRec pool id = some r) : r.account_id = id := by
  have h := List.find?_some hf
  exact eq_of_beq h

/-- Lookup at a matching head record. -/
theorem findRec_cons_pos {a : AccountRecord} {rest : Pool} {id : String}
    (h : (a.account_id == id) = true) : findRec (a :: rest) id = some a := by
  simp [findRec, List.find?, h]

/-- Lookup skips a non-matching head record. -/
theorem findRec_cons_neg {a : AccountRecord} {rest : Pool} {id : String}
    (h : (a.account_id == id) = false) :
    findRec (a :: rest) id = findRec rest id := by
  simp [findRec, List.find?, h]

/-- `setRec` at a matching head record. -/
theorem setRec_cons_pos {a : AccountRecord} {rest : Pool} {id : String}
    {ns : Status} {op : TsOp} (h : (a.account_id == id) = true) :
    setRec (a :: rest) id ns op = applyUpd a ns op :: setRec rest id ns op := by
  rw [setRec, List.map_cons, if_pos h]
  rfl

/-- `setRec` at a non-matching head record. -/
theorem setRec_cons_neg {a : AccountRecord} {rest : Pool} {id : String}
    {ns : Status} {op : TsOp} (h : (a.account_id == id) = false) :
    setRec (a :: rest) id ns op = a :: setRec rest id ns op := by
  rw [setRec, List.map_cons, if_neg (by simp [h])]
  rfl

/-- Looking up the updated key after `setRec` yields the updated record. -/
theorem findRec_setRec {pool : Pool} {id : String} {r : AccountRecord}
    (ns : Status) (op : TsOp) (hf : findRec pool id = some r) :
    findRec (setRec pool id ns op) id = some (applyUpd r ns op) := by
  induction pool with
  | nil => simp [findRec] at hf
  | cons a rest ih =>
    by_cases h : a.account_id = id
    · have hb : (a.account_id == id) = true := by simp [h]
      have hr : r = a := by
        rw [findRec_cons_pos hb] at hf
        exact (Option.some_inj.mp hf).symm
      subst hr
      have hb2 : ((applyUpd r ns op).account_id == id) = true := by
        simp [applyUpd, h]
      rw [setRec_cons_pos hb, findRec_cons_pos hb2]
    · have hb : (a.account_id == id) = false := by simp [h]
      rw [findRec_cons_neg hb] at hf
      rw [setRec_cons_neg hb, findRec_cons_neg hb]
      exact ih hf

/-- `setRec` leaves the lookup of every other key unchanged. -/
theorem findRec_setRec_ne {pool : Pool} {id j : String}
    (ns : Status) (op : TsOp) (hne : j ≠ id) :
    findRec (setRec pool id ns op) j = findRec pool j := by
  induction pool with
  | nil => rfl
  | cons a rest ih =>
    by_cases h : a.account_id = id
    · have hbj : (a.account_id == j) = false := by
        simp [h]
        exact fun hc => hne hc.symm
      have hbj2 : ((applyUpd a ns op).account_id == j) = false := by
        simpa [applyUpd] using hbj
      rw [setRec_cons_pos (by simp [h]), findRec_cons_neg hbj2,
        findRec_cons_neg hbj]
      exact ih
    · by_cases hj : a.account_id = j
      · rw [setRec_cons_neg (by simp [h]), findRec_cons_pos (by simp [hj]),
          findRec_cons_pos (by simp [hj])]
      · rw [setRec_cons_neg (by simp [h]), findRec_cons_neg (by simp [hj]),
          findRec_cons_neg (by simp [hj])]
        exact ih

/-- With duplicate-free keys, looking up a member's key finds it. -/
theorem findRec_of_mem_nodup {pool : Pool} {a : AccountRecord}
    (hnd : (pool.map (fun r => r.account_id)).Nodup) (hmem : a ∈ pool) :
    findRec pool a.account_id = some a := by
  induction pool with
  | nil => cases hmem
  | cons b rest ih =>
    rw [List.map_cons, List.nodup_cons] at hnd
    rcases List.mem_cons.mp hmem with h | h
    · subst h
      exact findRec_cons_pos (by simp)
    · have hne : b.account_id ≠ a.account_id := by
        intro he
        exact hnd.1 (he ▸ List.mem_map_of_mem (fun r => r.account_id) h)
      rw [findRec_cons_neg (by simp [hne])]
      exact ih hnd.2 h

/-- An unconditional `update_item` on an existing key always succeeds. -/
theorem update_noCond_ok {pool : Pool} {id : String} {r : AccountRecord}
    (ns : Status) (op : TsOp) (hf : findRec pool id = some r) :
    update_item pool id ns op .noCond = .ok (setRec pool id ns op) := by
  unfold update_item
  rw [hf]
  rfl

/-- An existence-conditioned `update_item` on an existing key succeeds. -/
theorem update_attrExists_ok {pool : Pool} {id : String} {r : AccountRecord}
    (ns : Status) (op : TsOp) (hf : findRec pool id = some r) :
    update_item pool id ns op .attrExists = .ok (setRec pool id ns op) := by
  unfold update_item
  rw [hf]
  rfl

/-- A status-conditioned `update_item` succeeds when the stored status
matches the expected one. -/
theorem update_statusEq_ok {pool : Pool} {id : String} {r : AccountRecord}
    {s : Status} (ns : Status) (op : TsOp) (hf : findRec pool id = some r)
    (hs : r.status = s) :
    update_item pool id ns op (.statusEq s) = .ok (setRec pool id ns op) := by
  unfold update_item
  rw [hf]
  simp [condOk, hs]

/-- A status-conditioned `update_item` raises
`ConditionalCheckFailedException` when the stored status differs. -/
theorem update_statusEq_conflict {pool : Pool} {id : String}
    {r : AccountRecord} {s : Status} (ns : Status) (op : TsOp)
    (hf : findRec pool id = some r) (hs : r.status ≠ s) :
    update_item pool id ns op (.statusEq s) = .error .condFailed := by
  unfold update_item
  rw [hf]
  simp [condOk, hs]

/-- Inversion of a successful claim: the record existed, was AVAILABLE,
and the new pool is the rewritten one. -/
theorem claim_ok_inv {pool p1 : Pool} {id : String} {t : Int}
    (h : claimAccount pool id t = .ok p1) :
    ∃ r, findRec pool id = some r ∧ r.status = .AVAILABLE ∧
      p1 = setRec pool id .IN_USE (.setTs t) := by
  cases hfind : findRec pool id with
  | none =>
    unfold claimAccount update_item at h
    rw [hfind] at h
    cases h
  | some r =>
    by_cases hs : r.status = .AVAILABLE
    · rw [claimAccount, update_statusEq_ok .IN_USE (.setTs t) hfind hs] at h
      cases h
      exact ⟨r, rfl, hs, rfl⟩
    · rw [claimAccount,
        update_statusEq_conflict .IN_USE (.setTs t) hfind hs] at h
      cases h

/-! ## Releaser characterization lemmas -/

/-- Release of an unknown account: not-found error, store untouched. -/
theorem rel_notFound {pool : Pool} {id : String} (env : ReleaseEnv)
    (st : Status) (hf : findRec pool id = none) :
    release_account env pool id st =
      ⟨.exitNotFound ⟨"error", notFoundMsg id, id, none⟩, pool, false⟩ := by
  simp [release_account, hf]

/-- Release of an account that is neither IN_USE nor FAILED: not-leased
error, store untouched. -/
theorem rel_notLeased {pool : Pool} {id : String} {r : AccountRecord}
    (env : ReleaseEnv) (st : Status) (hf : findRec pool id = some r)
    (h1 : r.status ≠ .IN_USE) (h2 : r.status ≠ .FAILED) :
    release_account env pool id st =
      ⟨.exitNotLeased
        ⟨"error", notLeasedMsg id r.status, id, some r.status.toStr⟩,
        pool, false⟩ := by
  simp [release_account, hf, h1, h2]

/-- Release with target FAILED on a leased or failed account: marks
FAILED with no timestamp operation and no cleanup. -/
theorem rel_markFailed {pool : Pool} {id : String} {r : AccountRecord}
    (env : ReleaseEnv) (hf : findRec pool id = some r)
    (hst : r.status = .IN_USE ∨ r.status = .FAILED) :
    release_account env pool id .FAILED =
      ⟨.ok, setRec pool id .FAILED .keepTs, false⟩ := by
  rcases hst with h | h <;>
    simp [release_account, hf, h, releaseMarkFailed,
      update_noCond_ok .FAILED .keepTs hf]

/-- Release toward a non-FAILED target when `sts.assume_role` raises:
the record is marked DIRTY (timestamp removed) before `cloud-nuke` ever
runs, and the process exits. -/
theorem rel_noAssume {pool : Pool} {id : String} {r : AccountRecord}
    {env : ReleaseEnv} {st : Status} (hf : findRec pool id = some r)
    (hst : r.status = .IN_USE ∨ r.status = .FAILED) (htgt : st ≠ .FAILED)
    (ha : env.assumeRoleOk id = false) :
    release_account env pool id st =
      ⟨.exitCleanupFailed, setRec pool id .DIRTY .removeTs, false⟩ := by
  rcases hst with h | h <;>
    simp [release_account, hf, h, htgt, ha, releaseMarkDirty,
      update_noCond_ok .DIRTY .removeTs hf]

/-- Release when `cloud-nuke` fails: the record is marked DIRTY
(timestamp removed), an error document is printed, and the process
exits. -/
theorem rel_nukeFail {pool : Pool} {id : String} {r : AccountRecord}
    {env : ReleaseEnv} {st : Status} (hf : findRec pool id = some r)
    (hst : r.status = .IN_USE ∨ r.status = .FAILED) (htgt : st ≠ .FAILED)
    (ha : env.assumeRoleOk id = true) (hn : env.nukeOk id = false) :
    release_account env pool id st =
      ⟨.exitNukeFailed
        ⟨"error", "cloud-nuke failed for account " ++ id, id, none⟩,
        setRec pool id .DIRTY .removeTs, true⟩ := by
  rcases hst with h | h <;>
    simp [release_account, hf, h, htgt, ha, hn, releaseMarkDirty,
      update_noCond_ok .DIRTY .removeTs hf]

/-- Release when the IAM temporary-user teardown raises after a
successful wipe: the record is marked DIRTY (timestamp removed) and the
process exits. -/
theorem rel_cleanupFail {pool : Pool} {id : String} {r : AccountRecord}
    {env : ReleaseEnv} {st : Status} (hf : findRec pool id = some r)
    (hst : r.status = .IN_USE ∨ r.status = .FAILED) (htgt : st ≠ .FAILED)
    (ha : env.assumeRoleOk id = true) (hn : env.nukeOk id = true)
    (hc : env.cleanupOk id = false) :
    release_account env pool id st =
      ⟨.exitCleanupFailed, setRec pool id .DIRTY .removeTs, true⟩ := by
  rcases hst with h | h <;>
    simp [release_account, hf, h, htgt, ha, hn, hc, releaseMarkDirty,
      update_noCond_ok .DIRTY .removeTs hf]

/-- Fully successful release: wipe and teardown succeed and the record
is written to the target status with the timestamp removed. -/
theorem rel_success {pool : Pool} {id : String} {r : AccountRecord}
    {env : ReleaseEnv} {st : Status} (hf : findRec pool id = some r)
    (hst : r.status = .IN_USE ∨ r.status = .FAILED) (htgt : st ≠ .FAILED)
    (ha : env.assumeRoleOk id = true) (hn : env.nukeOk id = true)
    (hc : env.cleanupOk id = true) :
    release_account env pool id st = ⟨.ok, setRec pool id st .removeTs, true⟩ := by
  rcases hst with h | h <;>
    simp [release_account, hf, h, htgt, ha, hn, hc, releaseFinal,
      update_attrExists_ok st .removeTs hf]

/-- A release run never touches records with other keys. -/
theorem rel_other_keys {pool : Pool} {id j : String} (env : ReleaseEnv)
    (st : Status) (hne : j ≠ id) :
    findRec (release_account env pool id st).pool j = findRec pool j := by
  cases hf : findRec pool id with
  | none => rw [rel_notFound env st hf]
  | some r =>
    by_cases hst : r.status = .IN_USE ∨ r.status = .FAILED
    · by_cases htgt : st = .FAILED
      · subst htgt
        rw [rel_markFailed env hf hst]
        exact findRec_setRec_ne _ _ hne
      · by_cases ha : env.assumeRoleOk id = true
        · by_cases hn : env.nukeOk id = true
          · by_cases hc : env.cleanupOk id = true
            · rw [rel_success hf hst htgt ha hn hc]
              exact findRec_setRec_ne _ _ hne
            · rw [rel_cleanupFail hf hst htgt ha hn
                (Bool.not_eq_true _ ▸ hc)]
              exact findRec_setRec_ne _ _ hne
          · rw [rel_nukeFail hf hst htgt ha (Bool.not_eq_true _ ▸ hn)]
            exact findRec_setRec_ne _ _ hne
        · rw [rel_noAssume hf hst htgt (Bool.not_eq_true _ ▸ ha)]
          exact findRec_setRec_ne _ _ hne
    · push_neg at hst
      rw [rel_notLeased env st hf hst.1 hst.2]

/-- Janitor loop step on an eligible head record whose release run is
known. -/
theorem janitorStep_cons_eligible {env : ReleaseEnv} {now : Int}
    {a : AccountRecord} {rest : List AccountRecord} {pool p1 : Pool}
    {b : Bool} (he : staleEligible now a = true)
    (hrun : release_account env pool a.account_id .AVAILABLE = ⟨.ok, p1, b⟩) :
    janitorStep env now (a :: rest) pool = janitorStep env now rest p1 := by
  simp [janitorStep, he, hrun]

/-- Janitor loop step on an eligible head record whose release run
exits: the sweep aborts with the store as that run left it. -/
theorem janitorStep_cons_abort {env : ReleaseEnv} {now : Int}
    {a : AccountRecord} {rest : List AccountRecord} {pool : Pool}
    (he : staleEligible now a = true)
    (hout : (release_account env pool a.account_id .AVAILABLE).outcome ≠ .ok) :
    janitorStep env now (a :: rest) pool =
      ⟨false, (release_account env pool a.account_id .AVAILABLE).pool⟩ := by
  rw [janitorStep, if_pos he]
  cases hc : (release_account env pool a.account_id .AVAILABLE).outcome with
  | ok => exact absurd hc hout
  | exitNotFound d => simp [hc]
  | exitNotLeased d => simp [hc]
  | exitNukeFailed d => simp [hc]
  | exitCleanupFailed => simp [hc]
  | exitStoreError => simp [hc]

/-- Janitor loop step on an ineligible head record: skip it. -/
theorem janitorStep_cons_skip {env : ReleaseEnv} {now : Int}
    {a : AccountRecord} {rest : List AccountRecord} {pool : Pool}
    (he : staleEligible now a = false) :
    janitorStep env now (a :: rest) pool = janitorStep env now rest pool := by
  simp [janitorStep, he]

/-- The record a successful reclamation writes. -/
theorem applyUpd_avail (a : AccountRecord) :
    applyUpd a .AVAILABLE .removeTs = ⟨a.account_id, .AVAILABLE, none⟩ := rfl

/-- Master lemma for a janitor sweep over a snapshot of FAILED records
with duplicate-free keys when every reclamation succeeds: the sweep
completes, every eligible snapshot record ends AVAILABLE with its
timestamp removed, every ineligible one is untouched, and records
outside the snapshot are untouched. -/
theorem janitorStep_all_ok (env : ReleaseEnv) (now : Int)
    (snapshot : List AccountRecord) (pool : Pool)
    (hfind : ∀ a ∈ snapshot, findRec pool a.account_id = some a)
    (hfailed : ∀ a ∈ snapshot, a.status = .FAILED)
    (hnd : (snapshot.map (fun r => r.account_id)).Nodup)
    (henv : ∀ a ∈ snapshot, env.assumeRoleOk a.account_id = true ∧
      env.nukeOk a.account_id = true ∧ env.cleanupOk a.account_id = true) :
    (janitorStep env now snapshot pool).completed = true ∧
    (∀ a ∈ snapshot,
      findRec (janitorStep env now snapshot pool).pool a.account_id =
        some (if staleEligible now a then ⟨a.account_id, .AVAILABLE, none⟩
          else a)) ∧
    (∀ j, j ∉ snapshot.map (fun r => r.account_id) →
      findRec (janitorStep env now snapshot pool).pool j = findRec pool j) := by
  induction snapshot generalizing pool with
  | nil => simp [janitorStep]
  | cons a rest ih =>
    rw [List.map_cons, List.nodup_cons] at hnd
    have hfa := hfind a (List.mem_cons_self a rest)
    have hsta := hfailed a (List.mem_cons_self a rest)
    have henva := henv a (List.mem_cons_self a rest)
    by_cases he : staleEligible now a = true
    · have hrun := rel_success hfa (Or.inr hsta)
        (show Status.AVAILABLE ≠ Status.FAILED by decide)
        henva.1 henva.2.1 henva.2.2
      set p1 := setRec pool a.account_id .AVAILABLE .removeTs with hp1
      have hstep : janitorStep env now (a :: rest) pool =
          janitorStep env now rest p1 := janitorStep_cons_eligible he hrun
      have hrest := ih p1
        (fun b hb => by
          have hne : b.account_id ≠ a.account_id := fun hc =>
            hnd.1 (hc ▸ List.mem_map_of_mem (fun r => r.account_id) hb)
          rw [hp1, findRec_setRec_ne _ _ hne]
          exact hfind b (List.mem_cons_of_mem a hb))
        (fun b hb => hfailed b (List.mem_cons_of_mem a hb))
        hnd.2
        (fun b hb => henv b (List.mem_cons_of_mem a hb))
      refine ⟨by rw [hstep]; exact hrest.1, ?_, ?_⟩
      · intro b hb
        rcases List.mem_cons.mp hb with hba | hbr
        · subst hba
          rw [hstep, hrest.2.2 b.account_id hnd.1, hp1,
            findRec_setRec _ _ hfa, applyUpd_avail, if_pos he]
        · rw [hstep]
          exact hrest.2.1 b hbr
      · intro j hj
        rw [List.map_cons, List.mem_cons] at hj
        push_neg at hj
        rw [hstep, hrest.2.2 j hj.2, hp1, findRec_setRec_ne _ _ hj.1]
    · have he' : staleEligible now a = false := Bool.not_eq_true _ ▸ he
      have hstep : janitorStep env now (a :: rest) pool =
          janitorStep env now rest pool := janitorStep_cons_skip he'
      have hrest := ih pool
        (fun b hb => hfind b (List.mem_cons_of_mem a hb))
        (fun b hb => hfailed b (List.mem_cons_of_mem a hb))
        hnd.2
        (fun b hb => henv b (List.mem_cons_of_mem a hb))
      refine ⟨by rw [hstep]; exact hrest.1, ?_, ?_⟩
      · intro b hb
        rcases List.mem_cons.mp hb with hba | hbr
        · subst hba
          rw [hstep, hrest.2.2 b.account_id hnd.1, if_neg (by simp [he'])]
          exact hfind b (List.mem_cons_self b rest)
        · rw [hstep]
          exact hrest.2.1 b hbr
      · intro j hj
        rw [List.map_cons, List.mem_cons] at hj
        push_neg at hj
        rw [hstep]
        exact hrest.2.2 j hj.2

/-! ## Claims -/

/-- C1, counterexample.  The claim says every status transition against
the store is a compare-and-swap conditioned on the record's previous
status, with at most one of two successive attempts succeeding and no
unconditional status writes.  But the acquirer's DIRTY marking succeeds
against a record whose status is AVAILABLE (it carries no condition at
all), and two successive whole-program `release --status FAILED` runs on
the same record both succeed, the second never observing a conflict. -/
theorem c1_counterexample :
    acquirerMarkDirty [⟨"111111111111", .AVAILABLE, none⟩] "111111111111" =
      .ok [⟨"111111111111", .DIRTY, none⟩] ∧
    (release_account ⟨fun _ => true, fun _ => true, fun _ => true⟩
        [⟨"111111111111", .IN_USE, some (.good 0)⟩] "111111111111"
        .FAILED).outcome = .ok ∧
    (release_account ⟨fun _ => true, fun _ => true, fun _ => true⟩
        [⟨"111111111111", .FAILED, some (.good 0)⟩] "111111111111"
        .FAILED).outcome = .ok := by
  exact ⟨rfl, rfl, rfl⟩

/-- C1, amended.  Only the claim transition (AVAILABLE to IN_USE) is an
atomic compare-and-swap conditioned on the previous status: of two
successive claim attempts on the same record, at most one succeeds and
the loser observes Conflict, so two acquirers racing the same AVAILABLE
record cannot both claim it.  The DIRTY and FAILED markings are
unconditional status writes, and the final release is conditioned only
on record existence, so they succeed regardless of the previous
status. -/
theorem c1_amended :
    (∀ (pool : Pool) (id : String) (t1 t2 : Int) (p1 : Pool),
      claimAccount pool id t1 = .ok p1 →
      claimAccount p1 id t2 = .error .condFailed) ∧
    (∀ (pool : Pool) (id : String) (r : AccountRecord),
      findRec pool id = some r →
      acquirerMarkDirty pool id = .ok (setRec pool id .DIRTY .keepTs)) ∧
    (∀ (pool : Pool) (id : String) (r : AccountRecord),
      findRec pool id = some r →
      releaseMarkFailed pool id = .ok (setRec pool id .FAILED .keepTs)) ∧
    (∀ (pool : Pool) (id : String) (st : Status) (r : AccountRecord),
      findRec pool id = some r →
      releaseFinal pool id st = .ok (setRec pool id st .removeTs)) := by
  refine ⟨?_, ?_, ?_, ?_⟩
  · intro pool id t1 t2 p1 h
    obtain ⟨r, hfind, hav, hp1⟩ := claim_ok_inv h
    have hfind1 : findRec p1 id = some (applyUpd r .IN_USE (.setTs t1)) := by
      rw [hp1]
      exact findRec_setRec _ _ hfind
    exact update_statusEq_conflict .IN_USE (.setTs t2) hfind1 (by
      simp [applyUpd])
  · intro pool id r hf
    exact update_noCond_ok .DIRTY .keepTs hf
  · intro pool id r hf
    exact update_noCond_ok .FAILED .keepTs hf
  · intro pool id st r hf
    exact update_attrExists_ok st .removeTs hf

/-- C1, witness for the amended theorem at concrete inputs. -/
theorem c1_amended_witness :
    claimAccount [⟨"111111111111", .IN_USE, some (.good 1)⟩]
      "111111111111" 2 = .error .condFailed ∧
    acquirerMarkDirty [⟨"222222222222", .FAILED, some (.good 3)⟩]
      "222222222222" =
      .ok [⟨"222222222222", .DIRTY, some (.good 3)⟩] ∧
    releaseMarkFailed [⟨"222222222222", .IN_USE, some (.good 3)⟩]
      "222222222222" =
      .ok [⟨"222222222222", .FAILED, some (.good 3)⟩] ∧
    releaseFinal [⟨"222222222222", .FAILED, some (.good 3)⟩]
      "222222222222" .AVAILABLE =
      .ok [⟨"222222222222", .AVAILABLE, none⟩] := by
  refine ⟨?_, ?_, ?_, ?_⟩
  · exact c1_amended.1 [⟨"111111111111", .AVAILABLE, none⟩]
      "111111111111" 1 2 [⟨"111111111111", .IN_USE, some (.good 1)⟩] rfl
  · exact c1_amended.2.1 [⟨"222222222222", .FAILED, some (.good 3)⟩]
      "222222222222" ⟨"222222222222", .FAILED, some (.good 3)⟩ rfl
  · exact c1_amended.2.2.1 [⟨"222222222222", .IN_USE, some (.good 3)⟩]
      "222222222222" ⟨"222222222222", .IN_USE, some (.good 3)⟩ rfl
  · exact c1_amended.2.2.2 [⟨"222222222222", .FAILED, some (.good 3)⟩]
      "222222222222" .AVAILABLE ⟨"222222222222", .FAILED, some (.good 3)⟩ rfl

/-- C2, counterexample.  The claim says `lease_timestamp` is cleared on
every transition into DIRTY, whichever component performs it.  But the
acquirer's sanitizer-failure path (`lease_account.py` lines 136-141)
only writes the status: after an acquire run in which `cloud-nuke` fails
for the sole AVAILABLE account, that record is DIRTY and still carries
the lease timestamp written by the claim. -/
theorem c2_counterexample :
    (lease_account ⟨5, fun _ _ => .ok, fun _ => false, fun _ => true⟩ 1
        [⟨"111111111111", .AVAILABLE, none⟩]).pool =
      [⟨"111111111111", .DIRTY, some (.good 5)⟩] ∧
    some (TsVal.good 5) ≠ (none : Option TsVal) := by
  exact ⟨rfl, by decide⟩

/-- C2, amended.  `lease_timestamp` is set to the claim time exactly
when a record enters IN_USE; it is preserved unchanged on the Releaser's
IN_USE-to-FAILED transition; it is cleared on every transition into
AVAILABLE and on the Releaser's transitions into DIRTY; but the
Acquirer's IN_USE-to-DIRTY transition leaves it unchanged rather than
clearing it. -/
theorem c2_amended :
    (∀ (pool p1 : Pool) (id : String) (t : Int),
      claimAccount pool id t = .ok p1 →
      findRec p1 id = some ⟨id, .IN_USE, some (.good t)⟩) ∧
    (∀ (env : ReleaseEnv) (pool : Pool) (id : String) (r : AccountRecord),
      findRec pool id = some r → r.status = .IN_USE →
      (release_account env pool id .FAILED).outcome = .ok ∧
      (release_account env pool id .FAILED).nukeInvoked = false ∧
      findRec (release_account env pool id .FAILED).pool id =
        some ⟨id, .FAILED, r.lease_timestamp⟩) ∧
    (∀ (env : ReleaseEnv) (pool : Pool) (id : String) (r : AccountRecord)
      (st : Status),
      findRec pool id = some r → r.status = .IN_USE ∨ r.status = .FAILED →
      st ≠ .FAILED → env.assumeRoleOk id = true → env.nukeOk id = true →
      env.cleanupOk id = true →
      findRec (release_account env pool id st).pool id =
        some ⟨id, st, none⟩) ∧
    (∀ (env : ReleaseEnv) (pool : Pool) (id : String) (r : AccountRecord)
      (st : Status),
      findRec pool id = some r → r.status = .IN_USE ∨ r.status = .FAILED →
      st ≠ .FAILED → env.assumeRoleOk id = true → env.nukeOk id = false →
      findRec (release_account env pool id st).pool id =
        some ⟨id, .DIRTY, none⟩) ∧
    (∀ (pool : Pool) (id : String) (r : AccountRecord),
      findRec pool id = some r →
      acquirerMarkDirty pool id = .ok (setRec pool id .DIRTY .keepTs) ∧
      findRec (setRec pool id .DIRTY .keepTs) id =
        some ⟨id, .DIRTY, r.lease_timestamp⟩) := by
  refine ⟨?_, ?_, ?_, ?_, ?_⟩
  · intro pool p1 id t h
    obtain ⟨r, hfind, hav, hp1⟩ := claim_ok_inv h
    have hid := findRec_id hfind
    rw [hp1, findRec_setRec _ _ hfind]
    simp [applyUpd, hid]
  · intro env pool id r hf hst
    have hid := findRec_id hf
    rw [rel_markFailed env hf (Or.inl hst)]
    refine ⟨rfl, rfl, ?_⟩
    rw [findRec_setRec _ _ hf]
    simp [applyUpd, hid]
  · intro env pool id r st hf hst htgt ha hn hc
    have hid := findRec_id hf
    rw [rel_success hf hst htgt ha hn hc]
    rw [findRec_setRec _ _ hf]
    simp [applyUpd, hid]
  · intro env pool id r st hf hst htgt ha hn
    have hid := findRec_id hf
    rw [rel_nukeFail hf hst htgt ha hn]
    rw [findRec_setRec _ _ hf]
    simp [applyUpd, hid]
  · intro pool id r hf
    have hid := findRec_id hf
    refine ⟨update_noCond_ok .DIRTY .keepTs hf, ?_⟩
    rw [findRec_setRec _ _ hf]
    simp [applyUpd, hid]

/-- C2, witness for the amended theorem at concrete inputs. -/
theorem c2_amended_witness :
    findRec [⟨"111111111111", .IN_USE, some (.good 7)⟩] "111111111111" =
      some ⟨"111111111111", .IN_USE, some (.good 7)⟩ ∧
    (release_account ⟨fun _ => true, fun _ => true, fun _ => true⟩
        [⟨"111111111111", .IN_USE, some (.good 7)⟩] "111111111111"
        .FAILED).outcome = .ok ∧
    findRec (release_account ⟨fun _ => true, fun _ => true, fun _ => true⟩
        [⟨"111111111111", .IN_USE, some (.good 7)⟩] "111111111111"
        .FAILED).pool "111111111111" =
      some ⟨"111111111111", .FAILED, some (.good 7)⟩ ∧
    findRec (release_account ⟨fun _ => true, fun _ => true, fun _ => true⟩
        [⟨"111111111111", .FAILED, some (.good 7)⟩] "111111111111"
        .AVAILABLE).pool "111111111111" =
      some ⟨"111111111111", .AVAILABLE, none⟩ ∧
    findRec (release_account ⟨fun _ => true, fun _ => false, fun _ => true⟩
        [⟨"111111111111", .IN_USE, some (.good 7)⟩] "111111111111"
        .AVAILABLE).pool "111111111111" =
      some ⟨"111111111111", .DIRTY, none⟩ ∧
    findRec [⟨"111111111111", .IN_USE, some (.good 2)⟩] "111111111111" =
      some ⟨"111111111111", .IN_USE, some (.good 2)⟩ ∧
    findRec (setRec [⟨"111111111111", .IN_USE, some (.good 2)⟩]
        "111111111111" .DIRTY .keepTs) "111111111111" =
      some ⟨"111111111111", .DIRTY, some (.good 2)⟩ := by
  have h1 := (c2_amended.2.1 ⟨fun _ => true, fun _ => true, fun _ => true⟩
    [⟨"111111111111", .IN_USE, some (.good 7)⟩] "111111111111"
    ⟨"111111111111", .IN_USE, some (.good 7)⟩ rfl rfl)
  have h2 := (c2_amended.2.2.1 ⟨fun _ => true, fun _ => true, fun _ => true⟩
    [⟨"111111111111", .FAILED, some (.good 7)⟩] "111111111111"
    ⟨"111111111111", .FAILED, some (.good 7)⟩ .AVAILABLE rfl (Or.inr rfl)
    (by decide) rfl rfl rfl)
  have h3 := (c2_amended.2.2.2.1 ⟨fun _ => true, fun _ => false, fun _ => true⟩
    [⟨"111111111111", .IN_USE, some (.good 7)⟩] "111111111111"
    ⟨"111111111111", .IN_USE, some (.good 7)⟩ .AVAILABLE rfl (Or.inl rfl)
    (by decide) rfl rfl)
  have h4 := (c2_amended.2.2.2.2 [⟨"111111111111", .IN_USE, some (.good 2)⟩]
    "111111111111" ⟨"111111111111", .IN_USE, some (.good 2)⟩ rfl)
  exact ⟨rfl, h1.1, h1.2.2, h2, h3, rfl, h4.2⟩

/-- C5, counterexample.  The claim says a record in FAILED can only move
to AVAILABLE, never to DIRTY, under the automated flow.  But when the
janitor reclaims a stale FAILED record and `cloud-nuke` fails, the
Releaser's sanitizer-failure path marks that FAILED record DIRTY. -/
theorem c5_counterexample :
    (cleanup_failed_accounts ⟨fun _ => true, fun _ => false, fun _ => true⟩
        20000 [⟨"111111111111", .FAILED, some (.good 0)⟩]).pool =
      [⟨"111111111111", .DIRTY, none⟩] ∧
    Status.DIRTY ≠ Status.AVAILABLE := by
  exact ⟨rfl, by decide⟩

/-- C5, amended.  The Releaser (also when invoked by the Janitor)
mutates a record into DIRTY only if its current status was IN_USE or
FAILED, and a FAILED record being reclaimed toward AVAILABLE moves to
DIRTY exactly when the wipe/teardown fails, instead of never. -/
theorem c5_amended :
    (∀ (env : ReleaseEnv) (pool : Pool) (id : String) (st : Status)
      (r r1 : AccountRecord),
      findRec pool id = some r → r.status ≠ .DIRTY →
      findRec (release_account env pool id st).pool id = some r1 →
      r1.status = .DIRTY → r.status = .IN_USE ∨ r.status = .FAILED) ∧
    (∀ (env : ReleaseEnv) (pool : Pool) (id : String) (r : AccountRecord),
      findRec pool id = some r → r.status = .FAILED →
      env.assumeRoleOk id = true → env.nukeOk id = false →
      findRec (release_account env pool id .AVAILABLE).pool id =
        some ⟨id, .DIRTY, none⟩) := by
  constructor
  · intro env pool id st r r1 hf hnd hf1 hd1
    by_cases hst : r.status = .IN_USE ∨ r.status = .FAILED
    · exact hst
    · push_neg at hst
      rw [rel_notLeased env st hf hst.1 hst.2] at hf1
      rw [hf] at hf1
      cases hf1
      exact absurd hd1 hnd
  · intro env pool id r hf hst ha hn
    have hid := findRec_id hf
    rw [rel_nukeFail hf (Or.inr hst) (by decide) ha hn,
      findRec_setRec _ _ hf]
    simp [applyUpd, hid]

/-- C5, witness for the amended theorem at concrete inputs. -/
theorem c5_amended_witness :
    (Status.IN_USE = Status.IN_USE ∨ Status.IN_USE = Status.FAILED) ∧
    findRec (release_account ⟨fun _ => true, fun _ => false, fun _ => true⟩
        [⟨"222222222222", .FAILED, some (.good 1)⟩] "222222222222"
        .AVAILABLE).pool "222222222222" =
      some ⟨"222222222222", .DIRTY, none⟩ := by
  constructor
  · exact c5_amended.1 ⟨fun _ => true, fun _ => false, fun _ => true⟩
      [⟨"111111111111", .IN_USE, some (.good 0)⟩] "111111111111"
      .AVAILABLE ⟨"111111111111", .IN_USE, some (.good 0)⟩
      ⟨"111111111111", .DIRTY, none⟩ rfl (by decide) rfl rfl
  · exact c5_amended.2 ⟨fun _ => true, fun _ => false, fun _ => true⟩
      [⟨"222222222222", .FAILED, some (.good 1)⟩] "222222222222"
      ⟨"222222222222", .FAILED, some (.good 1)⟩ rfl rfl rfl rfl

/-- C7: the claim says a reclamation failure for one FAILED record is
logged and does not abort the sweep of the remaining records.  The code
intends this (each `release_account` call sits in a `try`/
`except Exception` block), but every `release_account` failure path ends
in `sys.exit(1)`, whose `SystemExit` is not an `Exception`, so the
handler never fires and the sweep dies on the first failing record.
Concretely: two FAILED records with missing timestamps are both
unconditionally eligible for recovery; `cloud-nuke` fails for the first;
the sweep aborts and the second, reclaimable record is never
processed. -/
theorem c7_sweep_aborts :
    cleanup_failed_accounts
        ⟨fun _ => true, fun i => !(i == "111111111111"), fun _ => true⟩ 0
        [⟨"111111111111", .FAILED, none⟩, ⟨"222222222222", .FAILED, none⟩] =
      ⟨false, [⟨"111111111111", .DIRTY, none⟩,
        ⟨"222222222222", .FAILED, none⟩]⟩ ∧
    staleEligible 0 ⟨"222222222222", .FAILED, none⟩ = true := by
  exact ⟨rfl, rfl⟩

/-- C8: with an empty store, acquire exits with the configuration error
before entering the poll loop — for every deadline, the run performs no
claim attempt, no credential call, and its result is the configuration
error, which is a different outcome from every Timeout result. -/
theorem c8_empty_pool :
    (∀ (env : LeaseEnv) (fuel : Nat),
      lease_account env fuel [] = ⟨.configError, [], [], []⟩) ∧
    (∀ ids : List String, (LeaseResult.configError : LeaseResult) ≠ .timedOut ids) := by
  constructor
  · intro env fuel
    rfl
  · intro ids h
    cases h

/-- C9: release of an unknown account fails with the not-found error and
release of an account that is neither IN_USE nor FAILED fails with the
invalid-state error, a structured document with status "error", the
current status, and a message mentioning "not leased"; in both cases the
store is returned unchanged. -/
theorem c9_release_failures :
    (∀ (env : ReleaseEnv) (pool : Pool) (id : String) (st : Status),
      findRec pool id = none →
      release_account env pool id st =
        ⟨.exitNotFound ⟨"error", notFoundMsg id, id, none⟩, pool, false⟩) ∧
    (∀ (env : ReleaseEnv) (pool : Pool) (id : String) (st : Status)
      (r : AccountRecord),
      findRec pool id = some r → r.status ≠ .IN_USE → r.status ≠ .FAILED →
      release_account env pool id st =
        ⟨.exitNotLeased ⟨"error", notLeasedMsg id r.status, id,
          some r.status.toStr⟩, pool, false⟩ ∧
      ∃ x y, notLeasedMsg id r.status = x ++ "not leased" ++ y) := by
  constructor
  · intro env pool id st hf
    exact rel_notFound env st hf
  · intro env pool id st r hf h1 h2
    refine ⟨rel_notLeased env st hf h1 h2, ?_⟩
    refine ⟨"Account " ++ id ++ " is ",
      " (current status: " ++ r.status.toStr ++ ")", ?_⟩
    have hlit : (" is not leased (current status: " : String) =
        " is " ++ "not leased" ++ " (current status: " := rfl
    rw [notLeasedMsg, hlit]
    simp only [String.append_assoc]

/-- C9, witness at concrete inputs: an empty store rejects any id as
not found, and an AVAILABLE record is rejected as not leased with the
store unchanged. -/
theorem c9_release_failures_witness :
    release_account ⟨fun _ => true, fun _ => true, fun _ => true⟩ []
        "111111111111" .AVAILABLE =
      ⟨.exitNotFound ⟨"error", notFoundMsg "111111111111",
        "111111111111", none⟩, [], false⟩ ∧
    release_account ⟨fun _ => true, fun _ => true, fun _ => true⟩
        [⟨"111111111111", .AVAILABLE, none⟩] "111111111111" .AVAILABLE =
      ⟨.exitNotLeased ⟨"error", notLeasedMsg "111111111111" .AVAILABLE,
        "111111111111", some "AVAILABLE"⟩,
        [⟨"111111111111", .AVAILABLE, none⟩], false⟩ ∧
    (∃ x y, notLeasedMsg "111111111111" Status.AVAILABLE =
      x ++ "not leased" ++ y) := by
  have h2 := c9_release_failures.2
    ⟨fun _ => true, fun _ => true, fun _ => true⟩
    [⟨"111111111111", .AVAILABLE, none⟩] "111111111111" .AVAILABLE
    ⟨"111111111111", .AVAILABLE, none⟩ rfl (by decide) (by decide)
  exact ⟨c9_release_failures.1 ⟨fun _ => true, fun _ => true, fun _ => true⟩
    [] "111111111111" .AVAILABLE rfl, h2.1, h2.2⟩

/-- C6: over a store with duplicate-free keys whose reclamations all
succeed, one janitor sweep with the 3-hour (10800-second) threshold
releases every FAILED record whose timestamp is absent or unparsable,
releases every FAILED record older than the threshold, leaves every
FAILED record within the threshold untouched, and completes. -/
theorem c6_janitor_sweep :
    ∀ (env : ReleaseEnv) (now : Int) (pool : Pool),
      (pool.map (fun r => r.account_id)).Nodup →
      (∀ id, env.assumeRoleOk id = true) →
      (∀ id, env.nukeOk id = true) →
      (∀ id, env.cleanupOk id = true) →
      ∀ a ∈ pool, a.status = .FAILED →
        ((a.lease_timestamp = none ∨
            (∃ s, a.lease_timestamp = some (.bad s))) →
          findRec (cleanup_failed_accounts env now pool).pool a.account_id =
            some ⟨a.account_id, .AVAILABLE, none⟩) ∧
        (∀ t, a.lease_timestamp = some (.good t) → now - t > 10800 →
          findRec (cleanup_failed_accounts env now pool).pool a.account_id =
            some ⟨a.account_id, .AVAILABLE, none⟩) ∧
        (∀ t, a.lease_timestamp = some (.good t) → ¬(now - t > 10800) →
          findRec (cleanup_failed_accounts env now pool).pool a.account_id =
            some a) ∧
        (cleanup_failed_accounts env now pool).completed = true := by
  intro env now pool hnd hea hen hec a ha hfa
  have hsub : (pool.filter (fun r => r.status == .FAILED)).Sublist pool :=
    List.filter_sublist pool
  have hnd2 : ((pool.filter (fun r => r.status == .FAILED)).map
      (fun r => r.account_id)).Nodup :=
    (hsub.map (fun r => r.account_id)).nodup hnd
  have H := janitorStep_all_ok env now
    (pool.filter (fun r => r.status == .FAILED)) pool
    (fun b hb => findRec_of_mem_nodup hnd (List.mem_of_mem_filter hb))
    (fun b hb => by
      have := List.of_mem_filter hb
      simpa using this)
    hnd2
    (fun b _ => ⟨hea b.account_id, hen b.account_id, hec b.account_id⟩)
  have hmem : a ∈ pool.filter (fun r => r.status == .FAILED) :=
    List.mem_filter.mpr ⟨ha, by simp [hfa]⟩
  have hrec := H.2.1 a hmem
  rw [cleanup_failed_accounts]
  refine ⟨?_, ?_, ?_, H.1⟩
  · intro hts
    rcases hts with h | ⟨s, h⟩
    · rw [hrec, if_pos (by simp [staleEligible, h])]
    · rw [hrec, if_pos (by simp [staleEligible, h])]
  · intro t h hage
    rw [hrec, if_pos (by simp [staleEligible, h, hage])]
  · intro t h hage
    rw [hrec, if_neg (by simp [staleEligible, h, hage])]

/-- C6, witness: a pool with a 4-hour-old FAILED record, a 1-hour-old
FAILED record and a corrupt-timestamp FAILED record; the sweep releases
the old and the corrupt one, keeps the young one, and completes. -/
theorem c6_janitor_sweep_witness :
    findRec (cleanup_failed_accounts
        ⟨fun _ => true, fun _ => true, fun _ => true⟩ 20000
        [⟨"111111111111", .FAILED, some (.good 5600)⟩,
         ⟨"222222222222", .FAILED, some (.good 16400)⟩,
         ⟨"333333333333", .FAILED, some (.bad "not-a-date")⟩]).pool
      "111111111111" = some ⟨"111111111111", .AVAILABLE, none⟩ ∧
    findRec (cleanup_failed_accounts
        ⟨fun _ => true, fun _ => true, fun _ => true⟩ 20000
        [⟨"111111111111", .FAILED, some (.good 5600)⟩,
         ⟨"222222222222", .FAILED, some (.good 16400)⟩,
         ⟨"333333333333", .FAILED, some (.bad "not-a-date")⟩]).pool
      "222222222222" =
      some ⟨"222222222222", .FAILED, some (.good 16400)⟩ ∧
    findRec (cleanup_failed_accounts
        ⟨fun _ => true, fun _ => true, fun _ => true⟩ 20000
        [⟨"111111111111", .FAILED, some (.good 5600)⟩,
         ⟨"222222222222", .FAILED, some (.good 16400)⟩,
         ⟨"333333333333", .FAILED, some (.bad "not-a-date")⟩]).pool
      "333333333333" = some ⟨"333333333333", .AVAILABLE, none⟩ := by
  have h1 := c6_janitor_sweep ⟨fun _ => true, fun _ => true, fun _ => true⟩
    20000
    [⟨"111111111111", .FAILED, some (.good 5600)⟩,
     ⟨"222222222222", .FAILED, some (.good 16400)⟩,
     ⟨"333333333333", .FAILED, some (.bad "not-a-date")⟩]
    (by decide) (fun _ => rfl) (fun _ => rfl) (fun _ => rfl)
    ⟨"111111111111", .FAILED, some (.good 5600)⟩ (by decide) rfl
  have h2 := c6_janitor_sweep ⟨fun _ => true, fun _ => true, fun _ => true⟩
    20000
    [⟨"111111111111", .FAILED, some (.good 5600)⟩,
     ⟨"222222222222", .FAILED, some (.good 16400)⟩,
     ⟨"333333333333", .FAILED, some (.bad "not-a-date")⟩]
    (by decide) (fun _ => rfl) (fun _ => rfl) (fun _ => rfl)
    ⟨"222222222222", .FAILED, some (.good 16400)⟩ (by decide) rfl
  have h3 := c6_janitor_sweep ⟨fun _ => true, fun _ => true, fun _ => true⟩
    20000
    [⟨"111111111111", .FAILED, some (.good 5600)⟩,
     ⟨"222222222222", .FAILED, some (.good 16400)⟩,
     ⟨"333333333333", .FAILED, some (.bad "not-a-date")⟩]
    (by decide) (fun _ => rfl) (fun _ => rfl) (fun _ => rfl)
    ⟨"333333333333", .FAILED, some (.bad "not-a-date")⟩ (by decide) rfl
  exact ⟨h1.2.1 5600 rfl (by decide),
    h2.2.2.1 16400 rfl (by decide),
    h3.1 (Or.inr ⟨"not-a-date", rfl⟩)⟩

/-- When a scan finds no AVAILABLE records the poll loop spins down to
the timeout report, leaving the store and traces untouched. -/
theorem lease_loop_no_avail (env : LeaseEnv) :
    ∀ (fuel : Nat) (st : CandState),
      st.pool.filter (fun r => r.status == .AVAILABLE) = [] →
      lease_loop env fuel st =
        ⟨.timedOut (inUseIds st.pool), st.pool, st.claims, st.assumes⟩ := by
  intro fuel
  induction fuel with
  | zero =>
    intro st h
    rfl
  | succ n ih =>
    intro st h
    rw [lease_loop, h]
    exact ih st h

/-- C10: the empty-pool precondition counts records of every status, so
a non-empty pool with no AVAILABLE record does not trigger the
configuration error: the acquirer enters the poll loop and, when nothing
becomes AVAILABLE before the deadline, exits with Timeout reporting the
IN_USE account ids, never attempting a claim. -/
theorem c10_no_available_times_out :
    ∀ (env : LeaseEnv) (fuel : Nat) (pool : Pool),
      pool ≠ [] → (∀ r ∈ pool, r.status ≠ .AVAILABLE) →
      lease_account env fuel pool =
        ⟨.timedOut (inUseIds pool), pool, [], []⟩ := by
  intro env fuel pool hne hna
  have hfilter : pool.filter (fun r => r.status == .AVAILABLE) = [] :=
    List.filter_eq_nil_iff.mpr (fun a ha => by simp [hna a ha])
  rw [lease_account, if_neg (by simpa using hne)]
  exact lease_loop_no_avail env fuel ⟨pool, [], []⟩ hfilter

/-- C10, witness: a pool holding one DIRTY and one IN_USE record times
out reporting the IN_USE id, instead of the configuration error. -/
theorem c10_no_available_times_out_witness :
    lease_account ⟨0, fun _ _ => .ok, fun _ => true, fun _ => true⟩ 3
        [⟨"111111111111", .DIRTY, none⟩,
         ⟨"222222222222", .IN_USE, some (.good 1)⟩] =
      ⟨.timedOut ["222222222222"],
        [⟨"111111111111", .DIRTY, none⟩,
         ⟨"222222222222", .IN_USE, some (.good 1)⟩], [], []⟩ := by
  have h := c10_no_available_times_out
    ⟨0, fun _ _ => .ok, fun _ => true, fun _ => true⟩ 3
    [⟨"111111111111", .DIRTY, none⟩,
     ⟨"222222222222", .IN_USE, some (.good 1)⟩]
    (by decide) (by decide)
  simpa [inUseIds] using h

/-- C3: when the sanitizer fails for the first claimed candidate, the
acquirer marks it DIRTY and continues with the next candidate instead of
aborting: on a pool of two AVAILABLE accounts where `cloud-nuke` fails
for the first and succeeds for the second, acquire succeeds referencing
the second, with the first DIRTY and the second IN_USE afterwards. -/
theorem c3_fanout_on_sanitizer_failure :
    ∀ (env : LeaseEnv) (fuel : Nat) (A B : String), A ≠ B →
      env.assumeRole A 14400 = .ok → env.assumeRole B 14400 = .ok →
      env.nukeOk A = false → env.nukeOk B = true → env.iamOk B = true →
      lease_account env (fuel + 1)
          [⟨A, .AVAILABLE, none⟩, ⟨B, .AVAILABLE, none⟩] =
        ⟨.success B,
          [⟨A, .DIRTY, some (.good env.now)⟩,
           ⟨B, .IN_USE, some (.good env.now)⟩],
          [A, B], [(A, 14400), (B, 14400)]⟩ := by
  intro env fuel A B hAB hA14 hB14 hnA hnB hiB
  have hBA : B ≠ A := Ne.symm hAB
  have hbBA : (B == A) = false := beq_eq_false_iff_ne.mpr hBA
  have hbAB : (A == B) = false := beq_eq_false_iff_ne.mpr hAB
  simp [lease_account, lease_loop, tryCandidates, claimAccount, update_item,
    findRec, List.find?, condOk, setRec, applyUpd, assumePhase,
    acquirerMarkDirty, hAB, hBA, hbAB, hbBA, hA14, hB14, hnA, hnB, hiB]

/-- C3, witness at concrete accounts and a concrete environment. -/
theorem c3_fanout_witness :
    lease_account
        ⟨7, fun _ _ => .ok, fun i => i == "222222222222", fun _ => true⟩ 1
        [⟨"111111111111", .AVAILABLE, none⟩,
         ⟨"222222222222", .AVAILABLE, none⟩] =
      ⟨.success "222222222222",
        [⟨"111111111111", .DIRTY, some (.good 7)⟩,
         ⟨"222222222222", .IN_USE, some (.good 7)⟩],
        ["111111111111", "222222222222"],
        [("111111111111", 14400), ("222222222222", 14400)]⟩ := by
  exact c3_fanout_on_sanitizer_failure
    ⟨7, fun _ _ => .ok, fun i => i == "222222222222", fun _ => true⟩ 0
    "111111111111" "222222222222" (by decide) rfl rfl rfl rfl rfl

/-- C4: after a successful claim the acquirer asks for a 14400-second
session first and, on a validation rejection, retries exactly once with
the 3600-second fallback and proceeds; any other credential failure
aborts the whole run with the fatal error, leaving the claimed record
IN_USE (not DIRTY) and never touching or attempting the remaining
candidates. -/
theorem c4_credential_paths :
    (∀ (env : LeaseEnv) (fuel : Nat) (A B : String), A ≠ B →
      env.assumeRole A 14400 = .validationErr →
      env.assumeRole A 3600 = .ok →
      env.nukeOk A = true → env.iamOk A = true →
      lease_account env (fuel + 1)
          [⟨A, .AVAILABLE, none⟩, ⟨B, .AVAILABLE, none⟩] =
        ⟨.success A,
          [⟨A, .IN_USE, some (.good env.now)⟩, ⟨B, .AVAILABLE, none⟩],
          [A], [(A, 14400), (A, 3600)]⟩) ∧
    (∀ (env : LeaseEnv) (fuel : Nat) (A B : String), A ≠ B →
      env.assumeRole A 14400 = .otherErr →
      lease_account env (fuel + 1)
          [⟨A, .AVAILABLE, none⟩, ⟨B, .AVAILABLE, none⟩] =
        ⟨.fatal A,
          [⟨A, .IN_USE, some (.good env.now)⟩, ⟨B, .AVAILABLE, none⟩],
          [A], [(A, 14400)]⟩) := by
  constructor
  · intro env fuel A B hAB hA14 hA36 hnA hiA
    have hBA : B ≠ A := Ne.symm hAB
    have hbBA : (B == A) = false := beq_eq_false_iff_ne.mpr hBA
    have hbAB : (A == B) = false := beq_eq_false_iff_ne.mpr hAB
    simp [lease_account, lease_loop, tryCandidates, claimAccount,
      update_item, findRec, List.find?, condOk, setRec, applyUpd,
      assumePhase, acquirerMarkDirty, hAB, hBA, hbAB, hbBA, hA14, hA36,
      hnA, hiA]
  · intro env fuel A B hAB hA14
    have hBA : B ≠ A := Ne.symm hAB
    have hbBA : (B == A) = false := beq_eq_false_iff_ne.mpr hBA
    have hbAB : (A == B) = false := beq_eq_false_iff_ne.mpr hAB
    simp [lease_account, lease_loop, tryCandidates, claimAccount,
      update_item, findRec, List.find?, condOk, setRec, applyUpd,
      assumePhase, acquirerMarkDirty, hAB, hBA, hbAB, hbBA, hA14]

/-- C4, witness at concrete accounts: one environment that rejects the
long duration with a validation error, and one that fails with a
different error. -/
theorem c4_credential_paths_witness :
    lease_account
        ⟨7, fun _ d => if d == 14400 then .validationErr else .ok,
          fun _ => true, fun _ => true⟩ 1
        [⟨"111111111111", .AVAILABLE, none⟩,
         ⟨"222222222222", .AVAILABLE, none⟩] =
      ⟨.success "111111111111",
        [⟨"111111111111", .IN_USE, some (.good 7)⟩,
         ⟨"222222222222", .AVAILABLE, none⟩],
        ["111111111111"], [("111111111111", 14400), ("111111111111", 3600)]⟩ ∧
    lease_account
        ⟨7, fun _ _ => .otherErr, fun _ => true, fun _ => true⟩ 1
        [⟨"111111111111", .AVAILABLE, none⟩,
         ⟨"222222222222", .AVAILABLE, none⟩] =
      ⟨.fatal "111111111111",
        [⟨"111111111111", .IN_USE, some (.good 7)⟩,
         ⟨"222222222222", .AVAILABLE, none⟩],
        ["111111111111"], [("111111111111", 14400)]⟩ := by
  constructor
  · exact c4_credential_paths.1
      ⟨7, fun _ d => if d == 14400 then .validationErr else .ok,
        fun _ => true, fun _ => true⟩ 0
      "111111111111" "222222222222" (by decide) rfl rfl rfl rfl
  · exact c4_credential_paths.2
      ⟨7, fun _ _ => .otherErr, fun _ => true, fun _ => true⟩ 0
      "111111111111" "222222222222" (by decide) rfl
